import Mathlib

/-! Verification of the generative-UI gateway service (the FastAPI
application in `main.py`, with the near-identical Gemini variant in
`gemini_app.py`).  Python strings are modelled as `List Char`; each
definition below is a shallow embedding of the Python function of the
same name.  External effects (the remote chat-completion call, the JSON
decoder, the clock) are passed in as explicit arguments. -/

namespace GenUI

/-- The backtick character (U+0060). -/
def bt : Char := Char.ofNat 96

/-- The apostrophe character (U+0027). -/
def apos : Char := Char.ofNat 39

/-- The markdown fence marker: three backticks. -/
def tick3 : List Char := [bt, bt, bt]

/-- The HTML fence-open marker (three backticks followed by `html`). -/
def fenceHtml : List Char := tick3 ++ ('h' :: 't' :: 'm' :: 'l' :: [])

/-- The ASCII whitespace characters removed by Python `str.strip()`. -/
def pyIsSpace (c : Char) : Bool :=
  c = ' ' || c = '\t' || c = '\n' || c = '\r' || c = Char.ofNat 11 || c = Char.ofNat 12

/-- Python `str.strip()`: drop whitespace from both ends. -/
def pyStrip (s : List Char) : List Char :=
  ((s.dropWhile pyIsSpace).reverse.dropWhile pyIsSpace).reverse

/-- Python `str.replace(pat, repl)` for non-empty `pat` (the source only
calls it with the two fence markers), written with an explicit fuel so
that it is structurally recursive; every step consumes at least one
character of `s`, so `fuel = s.length` always suffices. -/
def pyReplaceFuel (pat repl : List Char) : Nat → List Char → List Char
  | _, [] => []
  | 0, s => s
  | fuel + 1, c :: rest =>
    if pat ≠ [] ∧ pat.isPrefixOf (c :: rest) then
      repl ++ pyReplaceFuel pat repl fuel ((c :: rest).drop pat.length)
    else
      c :: pyReplaceFuel pat repl fuel rest

/-- Python `str.replace(pat, repl)`: replaces every left-to-right
non-overlapping occurrence of `pat`, anywhere in the string. -/
def pyReplace (pat repl s : List Char) : List Char :=
  pyReplaceFuel pat repl s.length s

/-- Python `pat in s`: does `pat` occur as a contiguous substring? -/
def hasSub (pat : List Char) : List Char → Bool
  | [] => pat.isEmpty
  | c :: rest => pat.isPrefixOf (c :: rest) || hasSub pat rest

/-- Response clean-up performed by `generate_ui` (identical in both
services): `content.strip()` followed by
`.replace(fence_open, "").replace(fence, "").strip()` where `fence_open`
is the HTML fence-open marker and `fence` is the bare three-backtick
marker. -/
def sanitize (content : List Char) : List Char :=
  pyStrip (pyReplace tick3 [] (pyReplace fenceHtml [] (pyStrip content)))

/-- Replace-all of the bare fence marker with the empty string, at a
given fuel (the inner loop of `sanitize`). -/
def rmT (f : Nat) (s : List Char) : List Char := pyReplaceFuel tick3 [] f s

/-- The Google generative-language host substring tested by `get_models`. -/
def geminiHost : List Char := "generativelanguage.googleapis.com".data

/-- The OpenAI-compatibility path segment tested by `get_models`. -/
def openaiSeg : List Char := "/openai/".data

/-- First correction rule of `get_models`: prepend a scheme when the URL
does not already start with `http`. -/
def schemeFix (url : List Char) : List Char :=
  if ("http".data).isPrefixOf url then url else ("http://".data) ++ url

/-- Second correction rule of `get_models`: prepend an `h` when the URL
starts with `ttp` (intended as a repair for the `ttps://` typo). -/
def ttpFix (url : List Char) : List Char :=
  if ("ttp".data).isPrefixOf url then ("h".data) ++ url else url

/-- Third correction rule of `get_models`: for Google generative-language
URLs missing the `/openai/` segment, append a trailing slash if missing
and then `openai/`. -/
def geminiFix (url : List Char) : List Char :=
  if hasSub geminiHost url && !hasSub openaiSeg url then
    (if ("/".data).isSuffixOf url then url else url ++ ("/".data)) ++ ("openai/".data)
  else url

/-- The whole URL-correction block of `get_models` (identical in both
services): the three rules in source order, applied only to a non-empty
URL. -/
def fixUrl (url : List Char) : List Char :=
  if url = [] then url else geminiFix (ttpFix (schemeFix url))

/-- One record of the persisted history log. -/
structure HistoryEntry where
  intent : List Char
  filename : List Char
  time : List Char
  model : List Char
deriving DecidableEq

/-- `save_history`: insert the new entry at the front and persist only
the first 100 entries (`history.insert(0, entry)`, `history[:100]`). -/
def save_history (entry : HistoryEntry) (history : List HistoryEntry) :
    List HistoryEntry :=
  (entry :: history).take 100

/-- `load_history`: a missing file or a failed JSON decode yields the
empty log.  The JSON decoder is an external library call, modelled as
the fallible `parse` argument; the persisted file is `none` when absent
and `some contents` otherwise. -/
def load_history (file : Option (List Char))
    (parse : List Char → Option (List HistoryEntry)) : List HistoryEntry :=
  match file with
  | none => []
  | some contents => (parse contents).getD []

/-- Persist a batch of entries one by one through `save_history`,
oldest first. -/
def appendAll (entries : List HistoryEntry) (history : List HistoryEntry) :
    List HistoryEntry :=
  entries.foldl (fun h e => save_history e h) history

/-- Concrete history entries distinguished by the length of the intent
field (used to witness eviction of a distinct entry). -/
def mkE (n : Nat) : HistoryEntry := ⟨List.replicate n 'x', [], [], []⟩

/-- Request body of `POST /generate` (`UIRequest` in the source). -/
structure UIRequest where
  current_html : List Char
  user_action : List Char
  api_key : List Char
  system_prompt : List Char
  llm_url : List Char
  model : List Char

/-- Everything observable about one `generate_ui` call: the HTTP
outcome, the remote chat-completion call (if one was issued), and the
post-state of the artifact directory and history file. -/
structure GenOutcome where
  status : Nat
  html : Option (List Char)
  detail : Option (List Char)
  remoteCalled : Bool
  remoteModel : Option (List Char)
  remoteUserPrompt : Option (List Char)
  remoteSystemPrompt : Option (List Char)
  history : List HistoryEntry
  artifacts : List (List Char × List Char)

/-- Fixed text of `main.py`'s user prompt before the user action. -/
def upA : List Char := "\n    [User Action/Intent]: ".data

/-- Fixed text of `main.py`'s user prompt between the user action and
the truncated markup. -/
def upB : List Char := "\n    \n    [Current HTML Context]:\n    ```html\n    ".data

/-- Fixed text of `main.py`'s user prompt after the truncated markup. -/
def upC : List Char :=
  ("\n    ```\n    \n    Update the UI based on the user".data) ++ [apos] ++
  ("s action. Maintain consistent branding and layout.\n    ".data)

/-- The user prompt built by `main.py`'s `generate_ui`: the f-string
interpolating `req.user_action` and `req.current_html[:5000]`. -/
def buildUserPrompt (action html : List Char) : List Char :=
  upA ++ action ++ upB ++ html.take 5000 ++ upC

/-- Fixed text of `gemini_app.py`'s user prompt between the user action
and the truncated markup. -/
def gupB : List Char := "\n    [Current HTML Context]:\n    ".data

/-- Fixed text of `gemini_app.py`'s user prompt after the truncated
markup. -/
def gupC : List Char :=
  ("\n    \n    Update the UI based on the user".data) ++ [apos] ++
  ("s action.\n    ".data)

/-- The user prompt built by `gemini_app.py`'s `generate_ui`. -/
def gBuildUserPrompt (action html : List Char) : List Char :=
  upA ++ action ++ gupB ++ html.take 5000 ++ gupC

/-- `main.py`'s built-in system prompt. -/
def DEFAULT_SYSTEM_PROMPT : List Char :=
  ("\n    You are an expert Senior UI/UX Engineer specialized in modern SaaS dashboards and web applications.\n    Your goal is to generate extremely high-quality, professional, and visually stunning HTML components using Tailwind CSS.\n\n    [STRICT OUTPUT RULES]\n    1. Return ONLY raw HTML code. \n    2. NO markdown formatting (DO NOT use ```html or ```).\n    3. NO explanation or conversational text.\n    4. Use Tailwind CSS for all styling. Use vibrant colors, glassmorphism, and modern shadows.\n    5. The UI must be responsive and feel \"alive\" (hover effects, smooth transitions).\n    6. All interactive elements (buttons, links) should look clickable but DO NOT include custom JavaScript functions or `onclick` handlers.\n    7. If the user interaction says \"User pushed [Button Name] button\", interpret this as a navigation or state change request and generate the corresponding NEXT screen.\n    ".data)

/-- `gemini_app.py`'s built-in system prompt. -/
def G_DEFAULT_SYSTEM_PROMPT : List Char :=
  ("\n    You are an expert Senior UI/UX Engineer specialized in modern SaaS dashboards and web applications.\n    Your goal is to generate extremely high-quality, professional, and visually stunning HTML components using Tailwind CSS.\n    Use vibrant colors, glassmorphism, and modern shadows.\n    \n    [STRICT OUTPUT RULES]\n    1. Return ONLY raw HTML code. \n    2. NO markdown formatting.\n    3. NO explanation.\n    ".data)

/-- Text of the standalone artifact document written by `main.py`,
before the generated fragment. -/
def docPrefixMain : List Char :=
  ("<!DOCTYPE html>\n<html>\n<head>\n    <meta charset=\"UTF-8\">\n    <script src=\"https://cdn.tailwindcss.com\"></script>\n    <link href=\"https://fonts.googleapis.com/css2?family=Inter:wght@400;600;700&display=swap\" rel=\"stylesheet\">\n    <style>body \x7b font-family: ".data)
  ++ [apos] ++ ("Inter".data) ++ [apos]
  ++ (", sans-serif; \x7d</style>\n</head>\n<body class=\"p-10 bg-slate-50\">\n    ".data)

/-- Text of the standalone artifact document written by `main.py`,
after the generated fragment. -/
def docSuffixMain : List Char := "\n</body>\n</html>\n".data

/-- The artifact document written to disk by `main.py`. -/
def wrapDocMain (g : List Char) : List Char := docPrefixMain ++ g ++ docSuffixMain

/-- Text of the artifact document written by `gemini_app.py`, before the
generated fragment. -/
def docPrefixG : List Char :=
  ("<!DOCTYPE html><html><head><script src=".data) ++ [apos]
  ++ ("https://cdn.tailwindcss.com".data) ++ [apos]
  ++ ("></script></head><body>".data)

/-- Text of the artifact document written by `gemini_app.py`, after the
generated fragment. -/
def docSuffixG : List Char := "</body></html>".data

/-- The artifact document written to disk by `gemini_app.py`. -/
def wrapDocG (g : List Char) : List Char := docPrefixG ++ g ++ docSuffixG

/-- Error detail of `main.py`'s configuration guard. -/
def errMain : List Char := "API Key or Local LLM URL is required.".data

/-- Error detail of `gemini_app.py`'s configuration guard. -/
def errG : List Char := "Gemini API Key is required.".data

/-- `POST /generate` of `main.py`.  The remote chat completion is an
external service: its outcome is the `remote` argument (`.ok content`
is the first choice's message content, `.error msg` the exception
text).  `timeStr` and `fileTs` stand for the two `datetime.now()`
formattings; `history` and `artifacts` are the pre-state of the
persisted history log and the artifact directory. -/
def generate_ui (req : UIRequest) (remote : Except (List Char) (List Char))
    (timeStr fileTs : List Char) (history : List HistoryEntry)
    (artifacts : List (List Char × List Char)) : GenOutcome :=
  if req.api_key = [] ∧ req.llm_url = [] then
    { status := 400, html := none, detail := some errMain, remoteCalled := false,
      remoteModel := none, remoteUserPrompt := none, remoteSystemPrompt := none,
      history := history, artifacts := artifacts }
  else
    let sys := if req.system_prompt = [] then DEFAULT_SYSTEM_PROMPT else req.system_prompt
    let usedModel := if req.model = [] then ("gpt-4o".data) else req.model
    let uprompt := buildUserPrompt req.user_action req.current_html
    match remote with
    | .error e =>
        { status := 500, html := none, detail := some e, remoteCalled := true,
          remoteModel := some usedModel, remoteUserPrompt := some uprompt,
          remoteSystemPrompt := some sys, history := history, artifacts := artifacts }
    | .ok content =>
        let g := sanitize content
        let filename := ("ui_".data) ++ fileTs ++ (".html".data)
        { status := 200, html := some g, detail := none, remoteCalled := true,
          remoteModel := some usedModel, remoteUserPrompt := some uprompt,
          remoteSystemPrompt := some sys,
          history := save_history ⟨req.user_action, filename, timeStr, req.model⟩ history,
          artifacts := (filename, wrapDocMain g) :: artifacts }

/-- `POST /generate` of `gemini_app.py`: same shape as `main.py`'s, but
the guard only requires a non-empty API key, the request model is passed
through unchanged, and the prompt and artifact texts differ. -/
def gemini_generate_ui (req : UIRequest) (remote : Except (List Char) (List Char))
    (timeStr fileTs : List Char) (history : List HistoryEntry)
    (artifacts : List (List Char × List Char)) : GenOutcome :=
  if req.api_key = [] then
    { status := 400, html := none, detail := some errG, remoteCalled := false,
      remoteModel := none, remoteUserPrompt := none, remoteSystemPrompt := none,
      history := history, artifacts := artifacts }
  else
    let sys := if req.system_prompt = [] then G_DEFAULT_SYSTEM_PROMPT else req.system_prompt
    let uprompt := gBuildUserPrompt req.user_action req.current_html
    match remote with
    | .error e =>
        { status := 500, html := none, detail := some e, remoteCalled := true,
          remoteModel := some req.model, remoteUserPrompt := some uprompt,
          remoteSystemPrompt := some sys, history := history, artifacts := artifacts }
    | .ok content =>
        let g := sanitize content
        let filename := ("ui_".data) ++ fileTs ++ (".html".data)
        { status := 200, html := some g, detail := none, remoteCalled := true,
          remoteModel := some req.model, remoteUserPrompt := some uprompt,
          remoteSystemPrompt := some sys,
          history := save_history ⟨req.user_action, filename, timeStr, req.model⟩ history,
          artifacts := (filename, wrapDocG g) :: artifacts }

/-! ### Basic lemmas about the string model -/

theorem isPrefixOf_true_iff {p s : List Char} : p.isPrefixOf s = true ↔ p <+: s := by
  simp

theorem isSuffixOf_true_iff {p s : List Char} : p.isSuffixOf s = true ↔ p <:+ s := by
  simp

theorem hasSub_true_iff (p : List Char) : ∀ s : List Char, hasSub p s = true ↔ p <:+: s := by
  intro s
  induction s with
  | nil => simp [hasSub]
  | cons c rest ih => simp [hasSub, List.infix_cons_iff, ih]

theorem pyStrip_isInfix (s : List Char) : pyStrip s <:+: s := by
  have h1 : s.dropWhile pyIsSpace <:+ s := List.dropWhile_suffix _
  have h2 : (s.dropWhile pyIsSpace).reverse.dropWhile pyIsSpace <:+
      (s.dropWhile pyIsSpace).reverse := List.dropWhile_suffix _
  have h3 : pyStrip s <+: s.dropWhile pyIsSpace := by
    rw [pyStrip] at *
    exact List.reverse_suffix.mp (by rw [List.reverse_reverse]; exact h2)
  exact h3.isInfix.trans h1.isInfix

/-! ### The sanitizer can leave no fence marker behind -/

theorem tick3_ne_nil : tick3 ≠ [] := by decide

theorem rmT_head : ∀ (f : Nat) (s : List Char),
    (rmT f s).head? = some bt → s.head? = some bt := by
  intro f s h
  match f, s with
  | _, [] => simp [rmT, pyReplaceFuel] at h
  | 0, c :: rest => simpa [rmT, pyReplaceFuel] using h
  | f + 1, c :: rest =>
    simp only [rmT, pyReplaceFuel] at h
    split at h
    next hc =>
      have h2 := hc.2
      rw [show tick3 = bt :: bt :: bt :: [] from rfl] at h2
      simp only [List.isPrefixOf, Bool.and_eq_true, beq_iff_eq] at h2
      simp [← h2.1]
    next hc =>
      have hcb : c = bt := by simpa using h
      simp [hcb]

theorem rmT_head2 : ∀ (f : Nat) (s : List Char),
    [bt, bt] <+: rmT f s → [bt, bt] <+: s := by
  intro f s h
  match f, s with
  | _, [] => simp [rmT, pyReplaceFuel] at h
  | 0, c :: rest => exact h
  | f + 1, c :: rest =>
    simp only [rmT, pyReplaceFuel] at h
    split at h
    next hc =>
      have hp : tick3 <+: c :: rest := isPrefixOf_true_iff.mp hc.2
      exact (show [bt, bt] <+: tick3 from ⟨[bt], rfl⟩).trans hp
    next hc =>
      rw [show ([bt, bt] : List Char) = bt :: [bt] from rfl, List.cons_prefix_cons] at h
      obtain ⟨hbc, h2⟩ := h
      obtain ⟨t, ht⟩ := h2
      have hhead : (pyReplaceFuel tick3 [] f rest).head? = some bt := by rw [← ht]; rfl
      have hr := rmT_head f rest hhead
      cases rest with
      | nil => simp at hr
      | cons r rest' =>
        have hrb : r = bt := by simpa using hr
        exact ⟨rest', by rw [← hbc, hrb]; rfl⟩

theorem rmT_noFence : ∀ (f : Nat) (s : List Char), s.length ≤ f → ¬ tick3 <:+: rmT f s := by
  intro f
  induction f with
  | zero =>
    intro s hs
    have : s = [] := List.length_eq_zero.mp (Nat.le_zero.mp hs)
    subst this
    simp [rmT, pyReplaceFuel, tick3_ne_nil]
  | succ f ih =>
    intro s hs
    match s with
    | [] => simp [rmT, pyReplaceFuel, tick3_ne_nil]
    | c :: rest =>
      have hlen : rest.length ≤ f := by simpa using hs
      simp only [rmT, pyReplaceFuel]
      split
      next hc =>
        have hdlen : ((c :: rest).drop tick3.length).length ≤ f := by
          have h3 : tick3.length = 3 := rfl
          simp only [List.length_drop, List.length_cons, h3]
          omega
        simpa [rmT] using ih _ hdlen
      next hc =>
        intro hinf
        rcases List.infix_cons_iff.mp hinf with hpre | hinf2
        · rw [show tick3 = bt :: [bt, bt] from rfl, List.cons_prefix_cons] at hpre
          obtain ⟨hbc, h2⟩ := hpre
          have h3 : [bt, bt] <+: rest := rmT_head2 f rest h2
          apply hc
          refine ⟨tick3_ne_nil, ?_⟩
          have : tick3 <+: c :: rest := by
            rw [show tick3 = bt :: [bt, bt] from rfl, List.cons_prefix_cons]
            exact ⟨hbc, h3⟩
          exact isPrefixOf_true_iff.mpr this
        · exact ih rest hlen hinf2

theorem sanitize_no_tick3 (content : List Char) : ¬ tick3 <:+: sanitize content := by
  intro h
  exact rmT_noFence _ _ le_rfl (h.trans (pyStrip_isInfix _))

/-- C1 (amended): the clean-up step is a global `str.replace`: it removes
every occurrence of the fence-open marker and of the bare fence marker
anywhere in the string (then trims whitespace), so the returned html
never contains either marker. -/
theorem claim_C1 : ∀ content : List Char,
    hasSub tick3 (sanitize content) = false ∧
    hasSub fenceHtml (sanitize content) = false := by
  intro content
  have hno := sanitize_no_tick3 content
  constructor
  · cases hcase : hasSub tick3 (sanitize content)
    · rfl
    · exact absurd ((hasSub_true_iff _ _).mp hcase) hno
  · cases hcase : hasSub fenceHtml (sanitize content)
    · rfl
    · have hf := (hasSub_true_iff _ _).mp hcase
      have ht : tick3 <:+: fenceHtml := ⟨[], 'h' :: 't' :: 'm' :: 'l' :: [], rfl⟩
      exact absurd (ht.trans hf) hno

/-- C1 counterexample: a fence marker strictly inside the body is *not*
left untouched: it is removed by the clean-up, contradicting the claim
that only leading/trailing markers are stripped. -/
theorem claim_C1_counterexample :
    hasSub tick3 (("<div>".data) ++ tick3 ++ ("</div>".data)) = true ∧
    sanitize (("<div>".data) ++ tick3 ++ ("</div>".data)) = ("<div></div>".data) ∧
    hasSub tick3 (sanitize (("<div>".data) ++ tick3 ++ ("</div>".data))) = false := by
  decide

/-- C2: the claim fails, and the failure is a bug in the code rather
than in the spec: the scheme-prepend rule runs first, so any URL
starting with `ttp` has already been turned into `http://ttp...` by the
time the typo-repair rule looks at it — the repair branch is dead code,
contradicting the comment above it in the source.  At the failing input
`"ttps://example.com"` the code yields `"http://ttps://example.com"`,
not the claimed `"https://example.com"`. -/
theorem claim_C2 :
    fixUrl (("ttps://example.com").data) = ("http://ttps://example.com").data ∧
    fixUrl (("ttps://example.com").data) ≠ ("https://example.com").data := by
  decide

/-! ### URL-correction lemmas -/

theorem schemeFix_starts (u : List Char) : ∃ t, schemeFix u = ("http".data) ++ t := by
  rw [schemeFix]
  split
  next h =>
    obtain ⟨t, ht⟩ := isPrefixOf_true_iff.mp h
    exact ⟨t, ht.symm⟩
  next _ => exact ⟨("://".data) ++ u, rfl⟩

theorem ttpFix_http (t : List Char) :
    ttpFix (("http".data) ++ t) = ("http".data) ++ t := by
  have hf : (("ttp".data)).isPrefixOf (("http".data) ++ t) = false := rfl
  rw [ttpFix, if_neg (by simp [hf])]

theorem geminiFix_noop (u : List Char)
    (himp : hasSub geminiHost u = true → hasSub openaiSeg u = true) :
    geminiFix u = u := by
  have hcond : (hasSub geminiHost u && !hasSub openaiSeg u) = false := by
    cases hg : hasSub geminiHost u
    · rfl
    · simp [himp hg]
  simp [geminiFix, hcond]

theorem geminiFix_fire (u : List Char) (hg : hasSub geminiHost u = true)
    (ho : hasSub openaiSeg u = false) :
    geminiFix u =
      (if ("/".data).isSuffixOf u then u else u ++ ("/".data)) ++ ("openai/".data) := by
  simp [geminiFix, hg, ho]

theorem geminiFix_suffix_openai (u : List Char) (hg : hasSub geminiHost u = true)
    (ho : hasSub openaiSeg u = false) : ("/openai/".data) <:+ geminiFix u := by
  rw [geminiFix_fire u hg ho]
  split
  next hsuf =>
    obtain ⟨b, hb⟩ := isSuffixOf_true_iff.mp hsuf
    rw [← hb, List.append_assoc,
      show ("/".data) ++ ("openai/".data) = ("/openai/".data) from rfl]
    exact List.suffix_append _ _
  next _ =>
    rw [List.append_assoc,
      show ("/".data) ++ ("openai/".data) = ("/openai/".data) from rfl]
    exact List.suffix_append _ _

theorem geminiFix_openai (u : List Char) :
    hasSub geminiHost (geminiFix u) = true → hasSub openaiSeg (geminiFix u) = true := by
  intro hg
  by_cases hgu : hasSub geminiHost u = true
  · by_cases hou : hasSub openaiSeg u = true
    · rw [geminiFix_noop u (fun _ => hou)]
      exact hou
    · have ho : hasSub openaiSeg u = false := by
        cases hcase : hasSub openaiSeg u
        · rfl
        · exact absurd hcase hou
      have hs := geminiFix_suffix_openai u hgu ho
      exact (hasSub_true_iff _ _).mpr hs.isInfix
  · rw [geminiFix_noop u (fun hh => absurd hh hgu)] at hg ⊢
    exact absurd hg hgu

theorem geminiFix_self_prefix (u : List Char) : u <+: geminiFix u := by
  rw [geminiFix]
  split
  · split
    next => exact ⟨("openai/".data), rfl⟩
    next => exact ⟨("/".data) ++ ("openai/".data), by rw [← List.append_assoc]⟩
  · exact List.prefix_rfl

theorem geminiFix_http (t : List Char) :
    ∃ s, geminiFix (("http".data) ++ t) = ("http".data) ++ s := by
  rw [geminiFix]
  split
  · split
    next => exact ⟨t ++ ("openai/".data), by rw [List.append_assoc]⟩
    next =>
      exact ⟨(t ++ ("/".data)) ++ ("openai/".data), by simp [List.append_assoc]⟩
  · exact ⟨t, rfl⟩

theorem fixUrl_http (t : List Char) :
    fixUrl (("http".data) ++ t) = geminiFix (("http".data) ++ t) := by
  show fixUrl ('h' :: 't' :: 't' :: 'p' :: t) = geminiFix ('h' :: 't' :: 't' :: 'p' :: t)
  have h1 : (("http".data)).isPrefixOf ('h' :: 't' :: 't' :: 'p' :: t) = true := by
    simp [List.isPrefixOf]
  have h2 : (("ttp".data)).isPrefixOf ('h' :: 't' :: 't' :: 'p' :: t) = false := rfl
  simp only [fixUrl, schemeFix, ttpFix, h1, h2]
  simp

theorem fixUrl_idem (url : List Char) : fixUrl (fixUrl url) = fixUrl url := by
  by_cases h0 : url = []
  · subst h0; rfl
  · have hv : fixUrl url = geminiFix (ttpFix (schemeFix url)) := by
      simp only [fixUrl, if_neg h0]
    obtain ⟨t, hts⟩ := schemeFix_starts url
    have h2 : ttpFix (schemeFix url) = schemeFix url := by
      rw [hts]; exact ttpFix_http t
    have h3 : ∃ s, fixUrl url = ("http".data) ++ s := by
      rw [hv, h2, hts]; exact geminiFix_http t
    obtain ⟨s, hs⟩ := h3
    have h4 : hasSub geminiHost (fixUrl url) = true →
        hasSub openaiSeg (fixUrl url) = true := by
      rw [hv, h2, hts]; exact geminiFix_openai _
    calc fixUrl (fixUrl url) = fixUrl (("http".data) ++ s) := by rw [hs]
    _ = geminiFix (("http".data) ++ s) := fixUrl_http s
    _ = ("http".data) ++ s := geminiFix_noop _ (by rw [← hs]; exact h4)
    _ = fixUrl url := hs.symm

/-- C7: on a URL with a scheme whose text contains the Gemini host and
lacks the `/openai/` segment, the correction appends `openai/`, adding a
single `/` only when the URL does not already end with one (so the
result ends in `/openai/`); and the whole correction is idempotent, so
an already-corrected Gemini URL is not double-appended.  (The code tests
host and path by substring containment, which is how "host matches" and
"path lacks" are modelled here.) -/
theorem claim_C7 :
    (∀ url : List Char, ("http".data).isPrefixOf url = true →
        hasSub geminiHost url = true → hasSub openaiSeg url = false →
        fixUrl url =
          (if ("/".data).isSuffixOf url then url else url ++ ("/".data)) ++
            ("openai/".data)
        ∧ ("/openai/".data) <:+ fixUrl url) ∧
    (∀ url : List Char, fixUrl (fixUrl url) = fixUrl url) := by
  constructor
  · intro url hhttp hg ho
    obtain ⟨t, ht⟩ := isPrefixOf_true_iff.mp hhttp
    subst ht
    have heq := fixUrl_http t
    refine ⟨?_, ?_⟩
    · rw [heq, geminiFix_fire _ hg ho]
    · rw [heq]; exact geminiFix_suffix_openai _ hg ho
  · exact fixUrl_idem

/-- C7 witness: a concrete Gemini URL without the `/openai/` segment. -/
theorem claim_C7_witness :
    ("/openai/".data) <:+
      fixUrl (("https://generativelanguage.googleapis.com/v1beta").data) :=
  (claim_C7.1 (("https://generativelanguage.googleapis.com/v1beta").data)
    (by decide) (by decide) (by decide)).2

/-- C8: a non-empty URL that does not start with `http` is returned with
`"http://"` prepended and the original content unchanged after it (for a
Gemini URL the correction may additionally append `openai/` at the end,
so the claim is the prefix property). -/
theorem claim_C8 : ∀ url : List Char, url ≠ [] →
    ("http".data).isPrefixOf url = false →
    (("http://".data) ++ url) <+: fixUrl url := by
  intro url h0 hh
  have h1 : fixUrl url = geminiFix (ttpFix (schemeFix url)) := by
    simp only [fixUrl, if_neg h0]
  have h2 : schemeFix url = ("http://".data) ++ url := by
    simp [schemeFix, hh]
  have h3 : ttpFix (("http://".data) ++ url) = ("http://".data) ++ url := by
    have hsplit : ("http://".data) ++ url = ("http".data) ++ (("://".data) ++ url) := rfl
    rw [hsplit, ttpFix_http]
  rw [h1, h2, h3]
  exact geminiFix_self_prefix _

/-- C8 witness: a scheme-less URL gets `http://` prepended. -/
theorem claim_C8_witness :
    (("http://".data) ++ ("example.com".data)) <+: fixUrl (("example.com").data) :=
  claim_C8 (("example.com").data) (by decide) (by decide)

/-! ### History-store lemmas -/

theorem take100_head (e : HistoryEntry) (h : List HistoryEntry) :
    ((e :: h).take 100).head? = some e := rfl

theorem take_append_take {α : Type} (a b : List α) (n : Nat) :
    (a ++ b.take n).take n = (a ++ b).take n := by
  rw [List.take_append_eq_append_take, List.take_append_eq_append_take, List.take_take,
    Nat.min_eq_left (Nat.sub_le n a.length)]

theorem appendAll_eq (es : List HistoryEntry) :
    ∀ st : List HistoryEntry, st.length ≤ 100 →
      appendAll es st = (es.reverse ++ st).take 100 := by
  induction es with
  | nil =>
    intro st h
    simp only [appendAll, List.foldl_nil, List.reverse_nil, List.nil_append]
    exact (List.take_of_length_le h).symm
  | cons e es ih =>
    intro st h
    have h1 : appendAll (e :: es) st = appendAll es (save_history e st) := rfl
    have h2 : (save_history e st).length ≤ 100 := by
      simp [save_history]
    rw [h1, ih _ h2, save_history, take_append_take]
    simp [List.reverse_cons, List.append_assoc]

theorem appendAll_range (f : Nat → HistoryEntry) :
    appendAll ((List.range 101).map f) [] =
      (List.range 100).map (fun i => f (100 - i)) := by
  rw [appendAll_eq _ _ (by simp), List.append_nil]
  apply List.ext_getElem
  · simp
  · intro i h1 h2
    simp only [List.getElem_take, List.getElem_reverse, List.getElem_map, List.getElem_range,
      List.length_map, List.length_range]

/-- C3: starting from an empty log, 101 appends leave exactly the 100
most recent entries, newest first ([f 100, ..., f 1]); for distinct
entries the first-appended one is evicted; and a single append never
leaves more than 100 persisted entries. -/
theorem claim_C3 :
    (∀ (e : HistoryEntry) (h : List HistoryEntry), (save_history e h).length ≤ 100) ∧
    ∀ f : Nat → HistoryEntry,
      (appendAll ((List.range 101).map f) []).length = 100 ∧
      appendAll ((List.range 101).map f) [] =
        (List.range 100).map (fun i => f (100 - i)) ∧
      (Function.Injective f → f 0 ∉ appendAll ((List.range 101).map f) []) := by
  constructor
  · intro e h
    simp [save_history]
  · intro f
    have hmain := appendAll_range f
    refine ⟨?_, hmain, ?_⟩
    · rw [hmain]; simp
    · intro hinj hmem
      rw [hmain, List.mem_map] at hmem
      obtain ⟨i, hi, heq⟩ := hmem
      rw [List.mem_range] at hi
      have := hinj heq
      omega

/-- C3 witness: concrete entries distinguished by the length of the
intent field; the first-appended entry is gone after 101 appends. -/
theorem claim_C3_witness :
    mkE 0 ∉ appendAll ((List.range 101).map mkE) [] :=
  (claim_C3.2 mkE).2.2 (by
    intro a b hab
    have hl := congrArg (fun e => e.intent.length) hab
    simpa [mkE] using hl)

/-! ### Prompt-construction and generation-endpoint claims -/

/-- C4: the prompt depends on the markup only through its first 5000
characters; that prefix occurs verbatim in the prompt; markup of at most
5000 characters is embedded whole; and the prompt's length accounts for
exactly `min 5000` markup characters.  The last component ties the
prompt builders to the request handlers. -/
theorem claim_C4 :
    (∀ action html : List Char,
        buildUserPrompt action html = buildUserPrompt action (html.take 5000) ∧
        (html.take 5000) <:+: buildUserPrompt action html ∧
        (html.length ≤ 5000 → html <:+: buildUserPrompt action html) ∧
        (buildUserPrompt action html).length =
          upA.length + action.length + upB.length + min 5000 html.length + upC.length) ∧
    (∀ action html : List Char,
        gBuildUserPrompt action html = gBuildUserPrompt action (html.take 5000) ∧
        (html.take 5000) <:+: gBuildUserPrompt action html ∧
        (html.length ≤ 5000 → html <:+: gBuildUserPrompt action html)) ∧
    (∀ (req : UIRequest) (content timeStr fileTs : List Char)
        (h : List HistoryEntry) (a : List (List Char × List Char)),
        ¬(req.api_key = [] ∧ req.llm_url = []) →
        (generate_ui req (.ok content) timeStr fileTs h a).remoteUserPrompt =
          some (buildUserPrompt req.user_action req.current_html) ∧
        (req.api_key ≠ [] →
          (gemini_generate_ui req (.ok content) timeStr fileTs h a).remoteUserPrompt =
            some (gBuildUserPrompt req.user_action req.current_html))) := by
  refine ⟨fun action html => ⟨?_, ?_, ?_, ?_⟩, fun action html => ⟨?_, ?_, ?_⟩, ?_⟩
  · rw [buildUserPrompt, buildUserPrompt, List.take_take, Nat.min_self]
  · exact ⟨upA ++ action ++ upB, upC, by simp [buildUserPrompt, List.append_assoc]⟩
  · intro hle
    have h1 : html.take 5000 = html := List.take_of_length_le hle
    have h2 : (html.take 5000) <:+: buildUserPrompt action html :=
      ⟨upA ++ action ++ upB, upC, by simp [buildUserPrompt, List.append_assoc]⟩
    rwa [h1] at h2
  · simp [buildUserPrompt]
    omega
  · rw [gBuildUserPrompt, gBuildUserPrompt, List.take_take, Nat.min_self]
  · exact ⟨upA ++ action ++ gupB, gupC, by simp [gBuildUserPrompt, List.append_assoc]⟩
  · intro hle
    have h1 : html.take 5000 = html := List.take_of_length_le hle
    have h2 : (html.take 5000) <:+: gBuildUserPrompt action html :=
      ⟨upA ++ action ++ gupB, gupC, by simp [gBuildUserPrompt, List.append_assoc]⟩
    rwa [h1] at h2
  · intro req content timeStr fileTs h a hcond
    constructor
    · simp [generate_ui, hcond]
    · intro hk
      simp [gemini_generate_ui, hk]

/-- C4 witness: a one-character markup is embedded whole. -/
theorem claim_C4_witness : ("x".data) <:+: buildUserPrompt [] (("x".data)) :=
  (claim_C4.1 [] (("x").data)).2.2.1 (by decide)

/-- C5: with both credentials empty, both services reject with a 400
before any remote call, and neither the history log nor the artifact
directory changes. -/
theorem claim_C5 :
    ∀ (req : UIRequest) (remote : Except (List Char) (List Char))
      (timeStr fileTs : List Char) (h : List HistoryEntry)
      (a : List (List Char × List Char)),
      req.api_key = [] → req.llm_url = [] →
      ((generate_ui req remote timeStr fileTs h a).status = 400 ∧
       (generate_ui req remote timeStr fileTs h a).remoteCalled = false ∧
       (generate_ui req remote timeStr fileTs h a).history = h ∧
       (generate_ui req remote timeStr fileTs h a).artifacts = a ∧
       (generate_ui req remote timeStr fileTs h a).detail = some errMain) ∧
      ((gemini_generate_ui req remote timeStr fileTs h a).status = 400 ∧
       (gemini_generate_ui req remote timeStr fileTs h a).remoteCalled = false ∧
       (gemini_generate_ui req remote timeStr fileTs h a).history = h ∧
       (gemini_generate_ui req remote timeStr fileTs h a).artifacts = a ∧
       (gemini_generate_ui req remote timeStr fileTs h a).detail = some errG) := by
  intro req remote timeStr fileTs h a hk hu
  constructor
  · simp [generate_ui, hk, hu]
  · simp [gemini_generate_ui, hk]

/-- C5 witness: the all-empty request is rejected with status 400. -/
theorem claim_C5_witness :
    (generate_ui ⟨[], [], [], [], [], []⟩ (.ok []) [] [] [] []).status = 400 :=
  ((claim_C5 ⟨[], [], [], [], [], []⟩ (.ok []) [] [] [] [] rfl rfl).1).1

/-- C6: a missing history file, or one the JSON decoder cannot parse,
makes `load_history` return the empty log; the exception never escapes
(the embedding is total). -/
theorem claim_C6 :
    ∀ (parse : List Char → Option (List HistoryEntry)) (contents : List Char),
      load_history none parse = [] ∧
      (parse contents = none → load_history (some contents) parse = []) := by
  intro parse contents
  exact ⟨rfl, fun h => by simp [load_history, h]⟩

/-- C6 witness: a decoder that always fails still yields the empty log. -/
theorem claim_C6_witness : load_history (some []) (fun _ => none) = [] :=
  (claim_C6 (fun _ => none) []).2 rfl

/-- C9: when the remote call succeeds (in either service, under its own
credential guard), the handler returns exactly the sanitized content,
adds exactly one artifact, and prepends exactly one history entry whose
filename is the name of the artifact just written. -/
theorem claim_C9 :
    ∀ (req : UIRequest) (content timeStr fileTs : List Char)
      (h : List HistoryEntry) (a : List (List Char × List Char)),
      (¬(req.api_key = [] ∧ req.llm_url = []) →
        (generate_ui req (.ok content) timeStr fileTs h a).status = 200 ∧
        (generate_ui req (.ok content) timeStr fileTs h a).html =
          some (sanitize content) ∧
        (generate_ui req (.ok content) timeStr fileTs h a).artifacts.length =
          a.length + 1 ∧
        (generate_ui req (.ok content) timeStr fileTs h a).history.length =
          min 100 (h.length + 1) ∧
        ∃ en fn,
          (generate_ui req (.ok content) timeStr fileTs h a).history.head? = some en ∧
          (generate_ui req (.ok content) timeStr fileTs h a).artifacts.head? =
            some (fn, wrapDocMain (sanitize content)) ∧
          en.filename = fn ∧ en.intent = req.user_action ∧ en.model = req.model ∧
          en.time = timeStr) ∧
      (req.api_key ≠ [] →
        (gemini_generate_ui req (.ok content) timeStr fileTs h a).status = 200 ∧
        (gemini_generate_ui req (.ok content) timeStr fileTs h a).html =
          some (sanitize content) ∧
        (gemini_generate_ui req (.ok content) timeStr fileTs h a).artifacts.length =
          a.length + 1 ∧
        (gemini_generate_ui req (.ok content) timeStr fileTs h a).history.length =
          min 100 (h.length + 1) ∧
        ∃ en fn,
          (gemini_generate_ui req (.ok content) timeStr fileTs h a).history.head? =
            some en ∧
          (gemini_generate_ui req (.ok content) timeStr fileTs h a).artifacts.head? =
            some (fn, wrapDocG (sanitize content)) ∧
          en.filename = fn ∧ en.intent = req.user_action ∧ en.model = req.model ∧
          en.time = timeStr) := by
  intro req content timeStr fileTs h a
  constructor
  · intro hcond
    refine ⟨by simp [generate_ui, hcond], by simp [generate_ui, hcond],
      by simp [generate_ui, hcond],
      by simp [generate_ui, hcond, save_history]; omega, ?_⟩
    refine ⟨⟨req.user_action, ("ui_".data) ++ fileTs ++ (".html".data), timeStr, req.model⟩,
      ("ui_".data) ++ fileTs ++ (".html".data), ?_, ?_, rfl, rfl, rfl, rfl⟩
    · simp [generate_ui, hcond, save_history, take100_head]
    · simp [generate_ui, hcond]
  · intro hk
    refine ⟨by simp [gemini_generate_ui, hk], by simp [gemini_generate_ui, hk],
      by simp [gemini_generate_ui, hk],
      by simp [gemini_generate_ui, hk, save_history]; omega, ?_⟩
    refine ⟨⟨req.user_action, ("ui_".data) ++ fileTs ++ (".html".data), timeStr, req.model⟩,
      ("ui_".data) ++ fileTs ++ (".html".data), ?_, ?_, rfl, rfl, rfl, rfl⟩
    · simp [gemini_generate_ui, hk, save_history, take100_head]
    · simp [gemini_generate_ui, hk]

/-- C9 witness: a concrete successful generation in the OpenAI-variant
service returns status 200. -/
theorem claim_C9_witness :
    (generate_ui ⟨[], [], ("k".data), [], [], []⟩ (.ok []) [] [] [] []).status = 200 :=
  ((claim_C9 ⟨[], [], ("k".data), [], [], []⟩ [] [] [] [] []).1 (by decide)).1

/-- C10: in the OpenAI-variant service, an empty request model is
silently replaced by `gpt-4o` in the remote call, while the history
entry records the empty model string — the recorded model differs from
the model actually used. -/
theorem claim_C10 :
    ∀ (req : UIRequest) (content timeStr fileTs : List Char)
      (h : List HistoryEntry) (a : List (List Char × List Char)),
      req.model = [] → ¬(req.api_key = [] ∧ req.llm_url = []) →
      (generate_ui req (.ok content) timeStr fileTs h a).remoteModel =
        some (("gpt-4o").data) ∧
      ∃ en,
        (generate_ui req (.ok content) timeStr fileTs h a).history.head? = some en ∧
        en.model = [] ∧
        some en.model ≠ (generate_ui req (.ok content) timeStr fileTs h a).remoteModel := by
  intro req content timeStr fileTs h a hm hcond
  refine ⟨by simp [generate_ui, hcond, hm],
    ⟨req.user_action, ("ui_".data) ++ fileTs ++ (".html".data), timeStr, req.model⟩,
    ?_, hm, ?_⟩
  · simp [generate_ui, hcond, save_history, take100_head]
  · simp [generate_ui, hcond, hm]

/-- C10 witness: the empty-model request is sent as `gpt-4o`. -/
theorem claim_C10_witness :
    (generate_ui ⟨[], [], ("k".data), [], [], []⟩ (.ok []) [] [] [] []).remoteModel =
      some (("gpt-4o").data) :=
  (claim_C10 ⟨[], [], ("k".data), [], [], []⟩ [] [] [] [] [] rfl (by decide)).1

end GenUI
